import Mathlib

/-!
Shallow embedding of the MIPS-lite pipeline simulator
(src/src/functional_simulator.cpp, src/src/mips_instruction.cpp,
src/src/stats.cpp, src/src/mips_mem_parser.cpp and the headers under
src/include) in Lean 4, together with theorems settling the frozen
claims about the natural-language specification.

Machine integers are modelled as `Nat` carrying the 32-bit pattern of the
corresponding `uint32_t` (signed `int32_t` intermediates are modelled on
`Int` and wrapped back modulo `2^32`, mirroring the C++ casts).  The
engine's memory collaborator is the abstract `IMemoryParser` interface
(`readInstruction`, `readMemory`, `writeMemory`); as in the repository's
unit tests it is modelled by total word-indexed functions.  Fallible
C++ code (`throw`) is modelled with `Except`.
-/

namespace MipsLite

/-- Two to the thirty-second power, the modulus of 32-bit machine arithmetic. -/
def U32MOD : Nat := 2 ^ 32

/-- Reinterpret a 32-bit pattern as a signed value
(`static_cast<int32_t>` on a `uint32_t`). -/
def i32 (n : Nat) : Int :=
  if n % U32MOD < 2 ^ 31 then ((n % U32MOD : Nat) : Int)
  else ((n % U32MOD : Nat) : Int) - (U32MOD : Int)

/-- Wrap a signed intermediate result back to its 32-bit pattern
(two's-complement storage of an `int32_t` / conversion to `uint32_t`). -/
def wrap32 (z : Int) : Nat := (z % (U32MOD : Int)).toNat

namespace mips_lite

/-- Opcode constants from src/include/mips_lite_defs.h. -/
def ADD : Nat := 0
/-- Opcode ADDI (1). -/
def ADDI : Nat := 1
/-- Opcode SUB (2). -/
def SUB : Nat := 2
/-- Opcode SUBI (3). -/
def SUBI : Nat := 3
/-- Opcode MUL (4). -/
def MUL : Nat := 4
/-- Opcode MULI (5). -/
def MULI : Nat := 5
/-- Opcode OR (6). -/
def OR : Nat := 6
/-- Opcode ORI (7). -/
def ORI : Nat := 7
/-- Opcode AND (8). -/
def AND : Nat := 8
/-- Opcode ANDI (9). -/
def ANDI : Nat := 9
/-- Opcode XOR (10). -/
def XOR : Nat := 10
/-- Opcode XORI (11). -/
def XORI : Nat := 11
/-- Opcode LDW (12). -/
def LDW : Nat := 12
/-- Opcode STW (13). -/
def STW : Nat := 13
/-- Opcode BZ (14). -/
def BZ : Nat := 14
/-- Opcode BEQ (15). -/
def BEQ : Nat := 15
/-- Opcode JR (16). -/
def JR : Nat := 16
/-- Opcode HALT (17). -/
def HALT : Nat := 17

/-- Instruction type (R-type or I-type), mips_lite_defs.h. -/
inductive InstructionType where
  | R_TYPE
  | I_TYPE
deriving Repr, DecidableEq

/-- Instruction category, mips_lite_defs.h. -/
inductive InstructionCategory where
  | ARITHMETIC
  | LOGICAL
  | MEMORY_ACCESS
  | CONTROL_FLOW
deriving Repr, DecidableEq

/-- Source `extract_bits(value, start, length)` from mips_lite_defs.h:
`(value >> start) & ((1 << length) - 1)`. -/
def extract_bits (value start length : Nat) : Nat :=
  Nat.land (value >>> start) ((1 <<< length) - 1)

/-- Source `get_opcode`: bits [31:26]. -/
def get_opcode (instruction : Nat) : Nat := extract_bits instruction 26 6

/-- Source `get_rs`: bits [25:21]. -/
def get_rs (instruction : Nat) : Nat := extract_bits instruction 21 5

/-- Source `get_rt`: bits [20:16]. -/
def get_rt (instruction : Nat) : Nat := extract_bits instruction 16 5

/-- Source `get_rd`: bits [15:11]. -/
def get_rd (instruction : Nat) : Nat := extract_bits instruction 11 5

/-- Source `get_immediate`: 16-bit immediate, sign-extended
(`static_cast<int16_t>` of the low 16 bits). -/
def get_immediate (instruction : Nat) : Int :=
  let b := extract_bits instruction 0 16
  if b < 2 ^ 15 then (b : Int) else (b : Int) - 2 ^ 16

/-- Source `get_instruction_type`: ADD, SUB, MUL, OR, AND, XOR are R-type,
everything else is I-type. -/
def get_instruction_type (opcode : Nat) : InstructionType :=
  if opcode = ADD ∨ opcode = SUB ∨ opcode = MUL ∨
     opcode = OR ∨ opcode = AND ∨ opcode = XOR then
    InstructionType.R_TYPE
  else
    InstructionType.I_TYPE

/-- Source `get_instruction_category`; the C++ throws `std::invalid_argument` for
an opcode outside the defined set, modelled by `none`. -/
def get_instruction_category (opcode : Nat) : Option InstructionCategory :=
  if opcode = ADD ∨ opcode = ADDI ∨ opcode = SUB ∨
     opcode = SUBI ∨ opcode = MUL ∨ opcode = MULI then
    some InstructionCategory.ARITHMETIC
  else if opcode = OR ∨ opcode = ORI ∨ opcode = AND ∨
          opcode = ANDI ∨ opcode = XOR ∨ opcode = XORI then
    some InstructionCategory.LOGICAL
  else if opcode = LDW ∨ opcode = STW then
    some InstructionCategory.MEMORY_ACCESS
  else if opcode = BZ ∨ opcode = BEQ ∨ opcode = JR ∨ opcode = HALT then
    some InstructionCategory.CONTROL_FLOW
  else
    none

/-- Source `is_halt_instruction`: the opcode of the word is HALT. -/
def is_halt_instruction (instruction : Nat) : Bool :=
  get_opcode instruction = HALT

end mips_lite

/-- The `Instruction` class (src/include/mips_instruction.h).  Its C++
fields (`opcode_`, `rs_`, `rt_`, `rd_`, `immediate_`, `instruction_type_`)
are all computed once in the constructor from the raw word and never
mutated, so they are modelled as derived functions of the stored word. -/
structure Instruction where
  instruction_ : Nat
deriving Repr, DecidableEq

namespace Instruction

/-- Constructor `Instruction(uint32_t instruction)`. -/
def ofWord (w : Nat) : Instruction := ⟨w⟩

/-- Source `getOpcode()`. -/
def getOpcode (i : Instruction) : Nat := mips_lite.get_opcode i.instruction_

/-- Source `getRs()`. -/
def getRs (i : Instruction) : Nat := mips_lite.get_rs i.instruction_

/-- Source `getRt()`. -/
def getRt (i : Instruction) : Nat := mips_lite.get_rt i.instruction_

/-- Source `getInstructionType()`. -/
def getInstructionType (i : Instruction) : mips_lite.InstructionType :=
  mips_lite.get_instruction_type i.getOpcode

/-- Source `hasRd()`: the constructor sets `rd_` exactly for R-type words. -/
def hasRd (i : Instruction) : Bool :=
  i.getInstructionType = mips_lite.InstructionType.R_TYPE

/-- Source `getRd()`; only called by the engine after `hasRd()`. -/
def getRd (i : Instruction) : Nat := mips_lite.get_rd i.instruction_

/-- Source `getImmediate()`; the constructor sets `immediate_` for every I-type
word, and the engine only calls this for I-type opcodes. -/
def getImmediate (i : Instruction) : Int :=
  mips_lite.get_immediate i.instruction_

end Instruction

/-- Source `PipelineStageData` (src/include/functional_simulator.h).  A slot of
the pipeline array is `Option PipelineStageData` (`nullptr` = `none`);
every record the engine creates carries an instruction, so
`PipelineStageData::isEmpty()` is `false` for `some` slots. -/
structure PipelineStageData where
  instruction : Instruction
  pc : Nat
  rs_value : Nat
  rt_value : Nat
  /-- Bit pattern of the `int32_t alu_result` (32 bits). -/
  alu_result : Nat
  memory_data : Nat
  dest_reg : Option Nat
deriving Repr, DecidableEq

/-- Default field values of the `PipelineStageData()` constructor,
parameterized by the instruction and its fetch-time program counter
(`instructionFetch` sets exactly these two fields). -/
def PipelineStageData.fresh (i : Instruction) (pc : Nat) : PipelineStageData :=
  { instruction := i, pc := pc, rs_value := 0, rt_value := 0,
    alu_result := 0, memory_data := 0, dest_reg := none }

/-- Source `getRsValueSigned()`. -/
def PipelineStageData.getRsValueSigned (d : PipelineStageData) : Int := i32 d.rs_value

/-- Source `getRtValueSigned()`. -/
def PipelineStageData.getRtValueSigned (d : PipelineStageData) : Int := i32 d.rt_value

/-- The `RegisterFile` (src/include/register_file.h), a 32-entry array of
32-bit words modelled as an index-to-value function (all entries 0 at
construction). -/
def RegisterFile := Nat → Nat

/-- Source `RegisterFile::read`: register 0 is hardwired to 0. -/
def RegisterFile.read (rf : RegisterFile) (reg : Nat) : Nat :=
  if reg = 0 then 0 else rf reg

/-- Source `RegisterFile::write`: a write to register 0 is discarded. -/
def RegisterFile.write (rf : RegisterFile) (reg value : Nat) : RegisterFile :=
  if reg = 0 then rf else fun x => if x = reg then value else rf x

/-- Insert into an `unordered_set`, modelled as a duplicate-free list. -/
def setInsert (x : Nat) (s : List Nat) : List Nat :=
  if x ∈ s then s else s ++ [x]

/-- The `Stats` collector (src/include/stats.h, src/src/stats.cpp).  The
category map is represented by one counter per category. -/
structure Stats where
  arithmeticCount : Nat
  logicalCount : Nat
  memoryAccessCount : Nat
  controlFlowCount : Nat
  registers : List Nat
  memoryAddresses : List Nat
  stalls : Nat
  clockCycles : Nat
deriving Repr, DecidableEq

namespace Stats

/-- The constructor zero-initializes every counter and set. -/
def init : Stats :=
  { arithmeticCount := 0, logicalCount := 0, memoryAccessCount := 0,
    controlFlowCount := 0, registers := [], memoryAddresses := [],
    stalls := 0, clockCycles := 0 }

/-- Source `Stats::incrementCategory`. -/
def incrementCategory (st : Stats) : mips_lite.InstructionCategory → Stats
  | mips_lite.InstructionCategory.ARITHMETIC =>
      { st with arithmeticCount := st.arithmeticCount + 1 }
  | mips_lite.InstructionCategory.LOGICAL =>
      { st with logicalCount := st.logicalCount + 1 }
  | mips_lite.InstructionCategory.MEMORY_ACCESS =>
      { st with memoryAccessCount := st.memoryAccessCount + 1 }
  | mips_lite.InstructionCategory.CONTROL_FLOW =>
      { st with controlFlowCount := st.controlFlowCount + 1 }

/-- Source `Stats::getCategoryCount`. -/
def getCategoryCount (st : Stats) : mips_lite.InstructionCategory → Nat
  | mips_lite.InstructionCategory.ARITHMETIC => st.arithmeticCount
  | mips_lite.InstructionCategory.LOGICAL => st.logicalCount
  | mips_lite.InstructionCategory.MEMORY_ACCESS => st.memoryAccessCount
  | mips_lite.InstructionCategory.CONTROL_FLOW => st.controlFlowCount

/-- Source `Stats::addRegister` (set membership semantics). -/
def addRegister (st : Stats) (reg : Nat) : Stats :=
  { st with registers := setInsert reg st.registers }

/-- Source `Stats::addMemoryAddress` (set membership semantics). -/
def addMemoryAddress (st : Stats) (addr : Nat) : Stats :=
  { st with memoryAddresses := setInsert addr st.memoryAddresses }

/-- Source `Stats::incrementStalls`. -/
def incrementStalls (st : Stats) : Stats := { st with stalls := st.stalls + 1 }

/-- Source `Stats::incrementClockCycles`. -/
def incrementClockCycles (st : Stats) : Stats :=
  { st with clockCycles := st.clockCycles + 1 }

end Stats

/-- Errors thrown by the engine (`std::runtime_error` /
`std::invalid_argument` sites in functional_simulator.cpp and
mips_lite_defs.h). -/
inductive SimError where
  /-- Source `execute` reached with an opcode outside the defined set. -/
  | invalidOpcode
  /-- Source `readRegisterValue` called while the stall flag is set. -/
  | unexpectedStallRead
  /-- Source `readRegisterValue` hit a load-use hazard that should have stalled. -/
  | hazardLDWInEx
  /-- Source `cycle` observed `branch_taken` with an empty Execute slot. -/
  | branchEmptyEx
  /-- Source `writeBack` asked for the category of an invalid opcode. -/
  | invalidCategory
deriving Repr, DecidableEq

/-- The `FunctionalSimulator` state (src/include/functional_simulator.h).
The five pipeline array entries are the five slot fields.  `imem` and
`dmem` model the injected `IMemoryParser` collaborator
(`readInstruction` and `readMemory`/`writeMemory`) as total
word-indexed functions, as the repository's mock-based tests do;
`regs` models the injected `RegisterFile`. -/
structure SimState where
  pc : Nat
  branch_taken : Bool
  regs : RegisterFile
  fetchSlot : Option PipelineStageData
  decodeSlot : Option PipelineStageData
  exSlot : Option PipelineStageData
  memSlot : Option PipelineStageData
  wbSlot : Option PipelineStageData
  stats : Stats
  forward : Bool
  halt_pipeline : Bool
  stall : Bool
  program_finished : Bool
  imem : Nat → Nat
  dmem : Nat → Nat

/-- The constructor: pc 0, all slots null, flags clear, fresh collaborators. -/
def SimState.init (forward : Bool) (imem dmem : Nat → Nat) : SimState :=
  { pc := 0, branch_taken := false, regs := fun _ => 0,
    fetchSlot := none, decodeSlot := none, exSlot := none,
    memSlot := none, wbSlot := none, stats := Stats.init,
    forward := forward, halt_pipeline := false, stall := false,
    program_finished := false, imem := imem, dmem := dmem }

/-- Source `isProgramFinished()` (functional_simulator.h line 96). -/
def SimState.isProgramFinished (s : SimState) : Bool := s.program_finished

/-- Source `isRegisterWriteInstruction`: R-type always writes; of the I-types,
exactly ADDI, SUBI, MULI, ORI, ANDI, XORI and LDW write. -/
def isRegisterWriteInstruction (instr : Instruction) : Bool :=
  if instr.getInstructionType = mips_lite.InstructionType.R_TYPE then true
  else
    instr.getOpcode = mips_lite.ADDI ∨ instr.getOpcode = mips_lite.SUBI ∨
    instr.getOpcode = mips_lite.MULI ∨ instr.getOpcode = mips_lite.ORI ∨
    instr.getOpcode = mips_lite.ANDI ∨ instr.getOpcode = mips_lite.XORI ∨
    instr.getOpcode = mips_lite.LDW

/-- Source `needsRtValue`: R-type instructions and the I-types BEQ and STW read
Rt as a source operand. -/
def needsRtValue (instr : Instruction) : Bool :=
  if instr.getInstructionType = mips_lite.InstructionType.R_TYPE then true
  else instr.getOpcode = mips_lite.BEQ ∨ instr.getOpcode = mips_lite.STW

/-- The Memory-stage fallthrough of `readRegisterValue`: check the MEM
slot for a forwardable destination, else read the register file. -/
def readRegisterValueMemStage (s : SimState) (reg : Nat) : Nat :=
  match s.memSlot with
  | some mem_data =>
      if mem_data.dest_reg = some reg then
        if mem_data.instruction.getOpcode = mips_lite.LDW then
          mem_data.memory_data
        else
          mem_data.alu_result
      else
        RegisterFile.read s.regs reg
  | none => RegisterFile.read s.regs reg

/-- Source `readRegisterValue` (functional_simulator.cpp lines 405-440):
register 0 reads as 0; reading during a stall throws; an occupied
Execute slot whose destination matches forwards its ALU result (a
load there throws); otherwise the Memory slot is consulted, then the
register file. -/
def readRegisterValue (s : SimState) (reg : Nat) : Except SimError Nat :=
  if reg = 0 then Except.ok 0
  else if s.stall then Except.error SimError.unexpectedStallRead
  else
    match s.exSlot with
    | some ex_data =>
        if ex_data.dest_reg = some reg then
          if ex_data.instruction.getOpcode = mips_lite.LDW then
            Except.error SimError.hazardLDWInEx
          else
            Except.ok ex_data.alu_result
        else
          Except.ok (readRegisterValueMemStage s reg)
    | none => Except.ok (readRegisterValueMemStage s reg)

/-- Source `causesHazard`: register 0 never causes hazards. -/
def causesHazard (reg dest_reg : Nat) : Bool := reg ≠ 0 ∧ reg = dest_reg

/-- Source `checkExecuteStageForHazard` (functional_simulator.cpp lines 484-515). -/
def checkExecuteStageForHazard (s : SimState) (rs rt : Nat) (needs_rt : Bool) :
    Bool :=
  match s.exSlot with
  | none => false
  | some ex_data =>
      match ex_data.dest_reg with
      | none => false
      | some dest_reg =>
          let rs_hazard := causesHazard rs dest_reg
          let rt_hazard := needs_rt && causesHazard rt dest_reg
          if rs_hazard || rt_hazard then
            if s.forward then
              ex_data.instruction.getOpcode = mips_lite.LDW
            else
              true
          else
            false

/-- Source `checkMemoryStageForHazard` (functional_simulator.cpp lines 517-538). -/
def checkMemoryStageForHazard (s : SimState) (rs rt : Nat) (needs_rt : Bool) :
    Bool :=
  match s.memSlot with
  | none => false
  | some mem_data =>
      match mem_data.dest_reg with
      | none => false
      | some dest_reg =>
          let rs_hazard := causesHazard rs dest_reg
          let rt_hazard := needs_rt && causesHazard rt dest_reg
          if rs_hazard || rt_hazard then !s.forward else false

/-- Source `detectStalls` (functional_simulator.cpp lines 451-476). -/
def detectStalls (s : SimState) : Bool :=
  match s.decodeSlot with
  | none => false
  | some decode_stage =>
      let rs := decode_stage.instruction.getRs
      let rt := decode_stage.instruction.getRt
      let needs_rt := needsRtValue decode_stage.instruction
      if rs = 0 ∧ (needs_rt = false ∨ rt = 0) then false
      else if checkExecuteStageForHazard s rs rt needs_rt then true
      else if checkMemoryStageForHazard s rs rt needs_rt then true
      else false

/-- Source `instructionFetch` (functional_simulator.cpp lines 58-78): with an
occupied Fetch slot or a latched halt, do nothing; otherwise read the
word at pc via the memory collaborator, latch halt if it is HALT, fill
the Fetch slot tagged with the fetch-time pc, and advance pc by 4. -/
def instructionFetch (s : SimState) : SimState :=
  match s.fetchSlot with
  | some _ => s
  | none =>
      if s.halt_pipeline then s
      else
        let instruction_word := s.imem s.pc
        { s with
          halt_pipeline := mips_lite.is_halt_instruction instruction_word,
          fetchSlot :=
            some (PipelineStageData.fresh (Instruction.ofWord instruction_word) s.pc),
          pc := (s.pc + 4) % U32MOD }

/-- Source `instructionDecode` (functional_simulator.cpp lines 80-111): with an
empty Decode slot or the stall flag set, do nothing; otherwise resolve
rs (and rt when its value is needed) through `readRegisterValue` and
populate the destination register per the register-write rule. -/
def instructionDecode (s : SimState) : Except SimError SimState :=
  match s.decodeSlot with
  | none => Except.ok s
  | some id_data =>
      if s.stall then Except.ok s
      else do
        let rs := id_data.instruction.getRs
        let rt := id_data.instruction.getRt
        let rs_value ← readRegisterValue s rs
        let d1 := { id_data with rs_value := rs_value }
        let d2 ←
          if needsRtValue id_data.instruction then do
            let rt_value ← readRegisterValue s rt
            pure { d1 with rt_value := rt_value }
          else
            pure d1
        let d3 :=
          if isRegisterWriteInstruction id_data.instruction then
            if id_data.instruction.hasRd then
              { d2 with dest_reg := some id_data.instruction.getRd }
            else
              { d2 with dest_reg := some id_data.instruction.getRt }
          else
            { d2 with dest_reg := none }
        Except.ok { s with decodeSlot := some d3 }

/-- The effect of one arm of the Execute-stage switch: the C++ switch
(functional_simulator.cpp lines 113-232) only ever writes
`ex_data->alu_result`, `branch_taken` and `halt_pipeline`; this record
captures those three writes (`branch = none` when the arm does not
touch `branch_taken`, `halt = true` when the arm latches the halt
flag). -/
structure ExecOutcome where
  alu : Nat
  branch : Option Bool
  halt : Bool
deriving Repr, DecidableEq

/-- The Execute-stage switch (functional_simulator.cpp lines 119-231),
one arm per opcode; `pc` is the simulator's current program counter
(used only by the HALT arm).  Taken BZ/BEQ/JR set `branch_taken`;
not-taken BZ/BEQ clear it and leave the slot's own fetch pc as the
ALU result; an undefined opcode throws `InvalidOpcode`. -/
def executeOutcome (pc : Nat) (ex_data : PipelineStageData) :
    Except SimError ExecOutcome :=
  let op := ex_data.instruction.getOpcode
  let imm := ex_data.instruction.getImmediate
  if op = mips_lite.ADD then
    Except.ok ⟨wrap32 (ex_data.getRsValueSigned + ex_data.getRtValueSigned),
      none, false⟩
  else if op = mips_lite.ADDI then
    Except.ok ⟨wrap32 (ex_data.getRsValueSigned + imm), none, false⟩
  else if op = mips_lite.SUB then
    Except.ok ⟨wrap32 (ex_data.getRsValueSigned - ex_data.getRtValueSigned),
      none, false⟩
  else if op = mips_lite.SUBI then
    Except.ok ⟨wrap32 (ex_data.getRsValueSigned - imm), none, false⟩
  else if op = mips_lite.MUL then
    Except.ok ⟨wrap32 (ex_data.getRsValueSigned * ex_data.getRtValueSigned),
      none, false⟩
  else if op = mips_lite.MULI then
    Except.ok ⟨wrap32 (ex_data.getRsValueSigned * imm), none, false⟩
  else if op = mips_lite.OR then
    Except.ok ⟨Nat.lor ex_data.rs_value ex_data.rt_value, none, false⟩
  else if op = mips_lite.ORI then
    Except.ok ⟨Nat.lor ex_data.rs_value (wrap32 imm), none, false⟩
  else if op = mips_lite.AND then
    Except.ok ⟨Nat.land ex_data.rs_value ex_data.rt_value, none, false⟩
  else if op = mips_lite.ANDI then
    Except.ok ⟨Nat.land ex_data.rs_value (wrap32 imm), none, false⟩
  else if op = mips_lite.XOR then
    Except.ok ⟨Nat.xor ex_data.rs_value ex_data.rt_value, none, false⟩
  else if op = mips_lite.XORI then
    Except.ok ⟨Nat.xor ex_data.rs_value (wrap32 imm), none, false⟩
  else if op = mips_lite.LDW then
    Except.ok ⟨wrap32 (ex_data.getRsValueSigned + imm), none, false⟩
  else if op = mips_lite.STW then
    Except.ok ⟨wrap32 (ex_data.getRsValueSigned + imm), none, false⟩
  else if op = mips_lite.BZ then
    if ex_data.rs_value = 0 then
      Except.ok ⟨wrap32 ((ex_data.pc : Int) + imm * 4), some true, false⟩
    else
      Except.ok ⟨ex_data.pc, some false, false⟩
  else if op = mips_lite.BEQ then
    if ex_data.rs_value = ex_data.rt_value then
      Except.ok ⟨wrap32 ((ex_data.pc : Int) + imm * 4), some true, false⟩
    else
      Except.ok ⟨ex_data.pc, some false, false⟩
  else if op = mips_lite.JR then
    Except.ok ⟨ex_data.rs_value, some true, false⟩
  else if op = mips_lite.HALT then
    Except.ok ⟨pc, none, true⟩
  else
    Except.error SimError.invalidOpcode

/-- Source `execute` (functional_simulator.cpp lines 113-232): with an empty
Execute slot do nothing; otherwise apply the switch arm's writes to
the slot's `alu_result` and the engine's `branch_taken` and
`halt_pipeline` flags. -/
def execute (s : SimState) : Except SimError SimState :=
  match s.exSlot with
  | none => Except.ok s
  | some ex_data =>
      match executeOutcome s.pc ex_data with
      | Except.error e => Except.error e
      | Except.ok o =>
          Except.ok { s with
            exSlot := some { ex_data with alu_result := o.alu },
            branch_taken := o.branch.getD s.branch_taken,
            halt_pipeline := s.halt_pipeline || o.halt }

/-- The `memory` stage (functional_simulator.cpp lines 243-276): LDW reads
the word at the ALU-result address into `memory_data`; STW writes the
captured rt value there and records the address in stats. -/
def memoryStage (s : SimState) : SimState :=
  match s.memSlot with
  | none => s
  | some mem_data =>
      let opcode := mem_data.instruction.getOpcode
      let addr := mem_data.alu_result
      if opcode = mips_lite.LDW then
        { s with memSlot := some { mem_data with memory_data := s.dmem addr } }
      else if opcode = mips_lite.STW then
        { s with
          dmem := fun x => if x = addr then mem_data.rt_value else s.dmem x,
          stats := s.stats.addMemoryAddress addr }
      else
        s

/-- Source `writeBack` (functional_simulator.cpp lines 289-323): record the
instruction's category in stats; if a destination register is present,
write the memory-load value (for LDW) or the ALU result to it and add
the destination to the stats register set. -/
def writeBack (s : SimState) : Except SimError SimState :=
  match s.wbSlot with
  | none => Except.ok s
  | some wb_data =>
      match mips_lite.get_instruction_category wb_data.instruction.getOpcode with
      | none => Except.error SimError.invalidCategory
      | some category =>
          let st1 := s.stats.incrementCategory category
          match wb_data.dest_reg with
          | none => Except.ok { s with stats := st1 }
          | some dest =>
              let value :=
                if wb_data.instruction.getOpcode = mips_lite.LDW then
                  wb_data.memory_data
                else
                  wb_data.alu_result
              Except.ok { s with
                regs := RegisterFile.write s.regs dest value,
                stats := st1.addRegister dest }

/-- Source `advancePipeline` (functional_simulator.cpp lines 325-344): MEM moves
to WB and EX to MEM; on a stall the stall counter is bumped, a bubble
enters EX and the front slots stay; otherwise ID moves to EX, IF to ID
and IF is left empty. -/
def advancePipeline (s : SimState) : SimState :=
  let s1 := { s with wbSlot := s.memSlot, memSlot := s.exSlot }
  if s.stall then
    { s1 with stats := s1.stats.incrementStalls, exSlot := none }
  else
    { s1 with exSlot := s.decodeSlot, decodeSlot := s.fetchSlot,
              fetchSlot := none }

/-- Source `checkProgramCompletion` as defined in functional_simulator.cpp lines
565-577: halt latched and every pipeline slot empty.  (It returns the
answer; it does not assign `program_finished`.) -/
def checkProgramCompletion (s : SimState) : Bool :=
  s.halt_pipeline && s.fetchSlot.isNone && s.decodeSlot.isNone &&
  s.exSlot.isNone && s.memSlot.isNone && s.wbSlot.isNone

/-- Source `cycle` (functional_simulator.cpp lines 346-384): completion makes it
a no-op; otherwise bump the cycle counter, run WB, MEM, EX; on a taken
branch redirect pc, flush IF/ID, clear `stall` and `branch_taken` and
advance; otherwise recompute `stall`, run ID and IF, and advance. -/
def cycle (s : SimState) : Except SimError SimState :=
  if checkProgramCompletion s then Except.ok s
  else do
    let s0 := { s with stats := s.stats.incrementClockCycles }
    let s1 ← writeBack s0
    let s2 := memoryStage s1
    let s3 ← execute s2
    if s3.branch_taken then
      match s3.exSlot with
      | none => Except.error SimError.branchEmptyEx
      | some ex_data =>
          let s4 := { s3 with
            pc := ex_data.alu_result,
            fetchSlot := none, decodeSlot := none,
            stall := false, branch_taken := false }
          Except.ok (advancePipeline s4)
    else
      let s4 := { s3 with stall := detectStalls s3 }
      let s5 ← instructionDecode s4
      let s6 := instructionFetch s5
      Except.ok (advancePipeline s6)

/-- Run `cycle` a given number of times. -/
def runN : Nat → SimState → Except SimError SimState
  | 0, s => Except.ok s
  | n + 1, s => do runN n (← cycle s)

namespace MemParser

/-- Error kinds of the file-backed `MemoryParser`
(src/src/mips_mem_parser.cpp); the C++ raises `std::runtime_error` with
distinct messages: "Unaligned memory access", "Memory address out of
bounds", and (from `seekToLine`) "Line number exceeds maximum memory
size of 4KiB". -/
inductive MemError where
  | Unaligned
  | OutOfBounds
  | SeekOutOfRange
deriving Repr, DecidableEq

/-- Source `MAX_MEMORY_SIZE` (src/include/mips_mem_parser.h): 4 KiB. -/
def MAX_MEMORY_SIZE : Nat := 4096

/-- Modelled from the spec: `MAX_LINE_COUNT` is referenced throughout
src/src/mips_mem_parser.cpp but its definition is not among the
sources (the header in the tree is from a different revision); the
spec fixes the memory at 1,024 words (4 KiB at 4 bytes per word),
agreeing with the header's `MAX_VEC_SIZE`. -/
def MAX_LINE_COUNT : Nat := 1024

/-- The file-backed `MemoryParser` state: the file's non-blank lines as
32-bit words plus the parser's program counter.  Between operations
the file cursor sits at line `program_counter_ / 4`; the cursor
save/restore mechanics inside one operation are abstracted (they do
not affect the validation path). -/
structure MemoryParser where
  lines : List Nat
  program_counter_ : Nat
deriving Repr, DecidableEq

/-- Source `writeZeroLines`: extend the file with zero lines up to length `n`. -/
def extendTo (lines : List Nat) (n : Nat) : List Nat :=
  lines ++ List.replicate (n - lines.length) 0

/-- Source `seekToLine` (mips_mem_parser.cpp lines 76-138): seeking to the
cursor's own line returns at once; otherwise a line number of
`MAX_LINE_COUNT` or more throws; seeking past the end of the file
appends zero lines so the target line can be accessed. -/
def seekToLine (p : MemoryParser) (lineNumber : Nat) :
    Except MemError MemoryParser :=
  if lineNumber = p.program_counter_ / 4 then Except.ok p
  else if MAX_LINE_COUNT ≤ lineNumber then Except.error MemError.SeekOutOfRange
  else Except.ok { p with lines := extendTo p.lines (lineNumber + 1) }

/-- Source `readMemory` (mips_mem_parser.cpp lines 208-256): a non-multiple-of-4
address throws Unaligned; an address at or past `MAX_LINE_COUNT * 4`
throws OutOfBounds; otherwise the word at line `address / 4` is
returned (0 beyond the original image, which gets zero-extended). -/
def readMemory (p : MemoryParser) (address : Nat) :
    Except MemError (Nat × MemoryParser) :=
  if address % 4 ≠ 0 then Except.error MemError.Unaligned
  else if MAX_LINE_COUNT * 4 ≤ address then Except.error MemError.OutOfBounds
  else do
    let lineNumber := address / 4
    let p1 ← seekToLine p lineNumber
    Except.ok ((p1.lines.drop lineNumber).headD 0, p1)

/-- Source `writeMemory` (mips_mem_parser.cpp lines 265-297): a non-multiple-of-4
address throws Unaligned; an address strictly past `MAX_LINE_COUNT * 4`
throws OutOfBounds (note the strict comparison, unlike `readMemory`);
otherwise the parser seeks to line `address / 4` and overwrites it. -/
def writeMemory (p : MemoryParser) (address value : Nat) :
    Except MemError MemoryParser :=
  if address % 4 ≠ 0 then Except.error MemError.Unaligned
  else if MAX_LINE_COUNT * 4 < address then Except.error MemError.OutOfBounds
  else do
    let lineNumber := address / 4
    let p1 ← seekToLine p lineNumber
    Except.ok { p1 with
      lines := (extendTo p1.lines (lineNumber + 1)).set lineNumber value }

end MemParser

/-! Definitions written from the claim wording (for refinement-style
comparison with the source-translated functions above). -/

/-- Modelled from the spec wording (claims C6/C7): the decoded
reads-Rt-as-source flag is true for all R-type opcodes plus BEQ and
STW (spec section 4.5). -/
def specReadsRtAsSource (i : Instruction) : Bool :=
  i.getOpcode = mips_lite.ADD ∨ i.getOpcode = mips_lite.SUB ∨
  i.getOpcode = mips_lite.MUL ∨ i.getOpcode = mips_lite.OR ∨
  i.getOpcode = mips_lite.AND ∨ i.getOpcode = mips_lite.XOR ∨
  i.getOpcode = mips_lite.BEQ ∨ i.getOpcode = mips_lite.STW

/-- Modelled from the spec wording (claim C6): some required source
register r of the Decode instruction (rs always, rt exactly when the
reads-Rt-as-source flag is set) satisfies r ≠ 0, the slot is occupied,
and the slot's destination register equals r. -/
def specHazardAgainst (d : PipelineStageData)
    (slot : Option PipelineStageData) : Bool :=
  match slot with
  | none => false
  | some t =>
      match t.dest_reg with
      | none => false
      | some dest =>
          (d.instruction.getRs ≠ 0 ∧ d.instruction.getRs = dest) ∨
          (specReadsRtAsSource d.instruction = true ∧
           d.instruction.getRt ≠ 0 ∧ d.instruction.getRt = dest)

/-- Whether an (optional) pipeline slot is occupied by an LDW. -/
def slotIsLoad (slot : Option PipelineStageData) : Bool :=
  match slot with
  | some t => t.instruction.getOpcode = mips_lite.LDW
  | none => false

/-- Modelled from the spec wording (claim C6): the stall policy table — a
hazard against Execute with a non-load stalls iff forwarding is
disabled, a hazard against Execute with LDW stalls regardless of
forwarding, a hazard against Memory stalls iff forwarding is disabled,
and no hazard never stalls. -/
def stallSpecC6 (s : SimState) : Bool :=
  match s.decodeSlot with
  | none => false
  | some d =>
      (specHazardAgainst d s.exSlot = true ∧ slotIsLoad s.exSlot = false ∧
         s.forward = false) ∨
      (specHazardAgainst d s.exSlot = true ∧ slotIsLoad s.exSlot = true) ∨
      (specHazardAgainst d s.memSlot = true ∧ s.forward = false)

/-- Modelled from the spec wording (claim C7), Memory-stage step of the
priority: if Memory is occupied and its destination equals the
requested register, use Memory's memory-load field when its
instruction is LDW and otherwise its ALU result; otherwise read the
register file. -/
def resolveSpecC7mem (s : SimState) (reg : Nat) : Nat :=
  match s.memSlot with
  | some m =>
      if m.dest_reg = some reg then
        if m.instruction.getOpcode = mips_lite.LDW then m.memory_data
        else m.alu_result
      else RegisterFile.read s.regs reg
  | none => RegisterFile.read s.regs reg

/-- Modelled from the spec wording (claim C7): resolve a required source
register with the priority Execute ALU result (occupied, destination
matches, not a load), then Memory (load data for LDW, else ALU
result), then the register file. -/
def resolveSpecC7 (s : SimState) (reg : Nat) : Nat :=
  match s.exSlot with
  | some ex =>
      if ex.dest_reg = some reg ∧
         ¬ ex.instruction.getOpcode = mips_lite.LDW then
        ex.alu_result
      else resolveSpecC7mem s reg
  | none => resolveSpecC7mem s reg

/-- The branch target the specification ascribes to a taken branch in
Execute: rs for JR, the branch's own fetch-time program counter plus
the sign-extended immediate times 4 for BZ/BEQ (claim C8). -/
def branchTargetC8 (ex : PipelineStageData) : Nat :=
  if ex.instruction.getOpcode = mips_lite.JR then ex.rs_value
  else wrap32 ((ex.pc : Int) + ex.instruction.getImmediate * 4)

/-- The state produced by the advance step of a stalled cycle, applied to
the post-execute view `s2`: the front slots are left in place (the
Fetch stage still runs), Memory moves to Writeback, Execute moves to
Memory, a bubble enters Execute and the stall counter is bumped. -/
def stallAdvanceResult (s2 : SimState) : SimState :=
  let s6 := instructionFetch { s2 with stall := true }
  { s6 with wbSlot := s6.memSlot, memSlot := s6.exSlot, exSlot := none,
            stats := s6.stats.incrementStalls }

/-- The state produced by the advance step of an unstalled cycle, applied
to the post-decode view `s3`: after the Fetch stage runs, every slot
moves forward one stage and Fetch is left empty. -/
def noStallAdvanceResult (s3 : SimState) : SimState :=
  let s6 := instructionFetch s3
  { s6 with wbSlot := s6.memSlot, memSlot := s6.exSlot,
            exSlot := s6.decodeSlot, decodeSlot := s6.fetchSlot,
            fetchSlot := none }

/-! Concrete states used by the closed (counterexample and witness)
theorems. -/

/-- An engine wired to a program image that is a single HALT instruction
(0x44000000) at every address, with all-zero data memory and
forwarding disabled. -/
def haltInit : SimState := SimState.init false (fun _ => 0x44000000) (fun _ => 0)

/-- The Writeback record of an ADD r0, r1, r2 instruction (raw word
0x00220000: rd = 0) whose destination register is 0. -/
def c3wb : PipelineStageData :=
  { instruction := Instruction.ofWord 0x00220000, pc := 0, rs_value := 3,
    rt_value := 4, alu_result := 7, memory_data := 0, dest_reg := some 0 }

/-- An engine state whose Writeback slot holds `c3wb`. -/
def c3state : SimState :=
  { SimState.init false (fun _ => 0) (fun _ => 0) with wbSlot := some c3wb }

/-- The state `writeBack` produces from `c3state`. -/
def c3out : SimState := ((writeBack c3state).toOption).getD c3state

/-- An engine state whose Decode slot holds a freshly fetched
ADD r3, r1, r2 (raw word 0x00221800), with no stall pending. -/
def c4state : SimState :=
  { SimState.init false (fun _ => 0) (fun _ => 0) with
    decodeSlot := some (PipelineStageData.fresh (Instruction.ofWord 0x00221800) 0) }

/-- A Writeback record for ADD r3, r1, r2 with destination register 3. -/
def c4wb : PipelineStageData :=
  { instruction := Instruction.ofWord 0x00221800, pc := 0, rs_value := 1,
    rt_value := 2, alu_result := 3, memory_data := 0, dest_reg := some 3 }

/-- An engine state whose Writeback slot holds `c4wb`. -/
def c4wbstate : SimState :=
  { SimState.init false (fun _ => 0) (fun _ => 0) with wbSlot := some c4wb }

/-- The state `writeBack` produces from `c4wbstate`. -/
def c4wbout : SimState := ((writeBack c4wbstate).toOption).getD c4wbstate

/-- The state `instructionDecode` produces from `c4state`. -/
def c4decOut : SimState := ((instructionDecode c4state).toOption).getD c4state

/-- A parser on a three-line file with its cursor at line 0. -/
def c5parser : MemParser.MemoryParser := { lines := [1, 2, 3], program_counter_ := 0 }

/-- A forwarding engine state: the Decode slot holds ADD r5, r0, r0 (raw
word 0x00002800, whose required source rs is register 0) and the
Execute slot holds ADD r0, r2, r3 (raw word 0x00430000) with
destination register 0 and ALU result 5. -/
def c7state : SimState :=
  { SimState.init true (fun _ => 0) (fun _ => 0) with
    decodeSlot := some (PipelineStageData.fresh (Instruction.ofWord 0x00002800) 4),
    exSlot := some { instruction := Instruction.ofWord 0x00430000, pc := 0,
                     rs_value := 2, rt_value := 3, alu_result := 5,
                     memory_data := 0, dest_reg := some 0 } }

/-- A forwarding engine state for the C7 witness: Decode holds
ADD r5, r1, r2 (raw word 0x00222800), Memory holds a completed
ADDI r1, r0, 42 (raw word 0x0401002A) with destination register 1 and
ALU result 42. -/
def c7wstate : SimState :=
  { SimState.init true (fun _ => 0) (fun _ => 0) with
    decodeSlot := some (PipelineStageData.fresh (Instruction.ofWord 0x00222800) 8),
    memSlot := some { instruction := Instruction.ofWord 0x0401002A, pc := 0,
                      rs_value := 0, rt_value := 0, alu_result := 42,
                      memory_data := 0, dest_reg := some 1 } }

/-- The Execute record of a JR r1 instruction (raw word 0x40200000) whose
captured rs value is 16. -/
def c8ex : PipelineStageData :=
  { instruction := Instruction.ofWord 0x40200000, pc := 8, rs_value := 16,
    rt_value := 0, alu_result := 0, memory_data := 0, dest_reg := none }

/-- An engine state whose Execute slot holds the taken jump `c8ex`. -/
def c8state : SimState :=
  { SimState.init false (fun _ => 0) (fun _ => 0) with exSlot := some c8ex, pc := 12 }

/-- Source `c8state` after the cycle counter increment at the top of `cycle`. -/
def c8s1 : SimState := { c8state with stats := c8state.stats.incrementClockCycles }

/-- The Execute record of a completed ADDI r1, r0, 8 (raw word
0x04010008) with destination register 1, feeding the C9 stall case. -/
def c9ex : PipelineStageData :=
  { instruction := Instruction.ofWord 0x04010008, pc := 0, rs_value := 0,
    rt_value := 0, alu_result := 0, memory_data := 0, dest_reg := some 1 }

/-- A no-forwarding engine state with a read-after-write hazard: Decode
holds ADDI r2, r1, 0 (raw word 0x04220000) while Execute holds `c9ex`
with destination register 1; the Fetch slot is also occupied. -/
def c9state : SimState :=
  { SimState.init false (fun _ => 0x44000000) (fun _ => 0) with
    decodeSlot := some (PipelineStageData.fresh (Instruction.ofWord 0x04220000) 4),
    exSlot := some c9ex,
    fetchSlot := some (PipelineStageData.fresh (Instruction.ofWord 0x44000000) 8),
    pc := 12 }

/-- Source `c9state` after the cycle counter increment at the top of `cycle`. -/
def c9s1 : SimState := { c9state with stats := c9state.stats.incrementClockCycles }

/-- The post-execute view of `c9state`. -/
def c9s2 : SimState := ((execute (memoryStage c9s1)).toOption).getD c9s1

/-- A no-forwarding engine state with no hazard: Decode holds
ADDI r2, r1, 0 and the back slots are empty. -/
def c9pstate : SimState :=
  { SimState.init false (fun _ => 0x44000000) (fun _ => 0) with
    decodeSlot := some (PipelineStageData.fresh (Instruction.ofWord 0x04220000) 4),
    fetchSlot := some (PipelineStageData.fresh (Instruction.ofWord 0x44000000) 8),
    pc := 12 }

/-- Source `c9pstate` after the cycle counter increment at the top of `cycle`. -/
def c9ps1 : SimState := { c9pstate with stats := c9pstate.stats.incrementClockCycles }

/-- The post-execute view of `c9pstate` (unchanged: Execute is empty). -/
def c9ps2 : SimState := ((execute (memoryStage c9ps1)).toOption).getD c9ps1

/-- The post-decode view of `c9pstate` in its unstalled cycle. -/
def c9ps3 : SimState :=
  ((instructionDecode { c9ps2 with stall := false }).toOption).getD c9ps2

/-! Helper lemmas. -/

theorem mem_setInsert_self (x : Nat) (l : List Nat) : x ∈ setInsert x l := by
  unfold setInsert
  split
  · assumption
  · simp

theorem getCategoryCount_addRegister (st : Stats) (r : Nat)
    (c : mips_lite.InstructionCategory) :
    (st.addRegister r).getCategoryCount c = st.getCategoryCount c := by
  cases c <;> rfl

theorem getCategoryCount_incrementCategory (st : Stats)
    (cat c : mips_lite.InstructionCategory) :
    (st.incrementCategory cat).getCategoryCount c =
      st.getCategoryCount c + (if c = cat then 1 else 0) := by
  cases cat <;> cases c <;>
    simp [Stats.incrementCategory, Stats.getCategoryCount]

theorem needsRtValue_eq_spec (i : Instruction) :
    needsRtValue i = specReadsRtAsSource i := by
  unfold needsRtValue specReadsRtAsSource Instruction.getInstructionType
    mips_lite.get_instruction_type
  by_cases h : i.getOpcode = mips_lite.ADD ∨ i.getOpcode = mips_lite.SUB ∨
      i.getOpcode = mips_lite.MUL ∨ i.getOpcode = mips_lite.OR ∨
      i.getOpcode = mips_lite.AND ∨ i.getOpcode = mips_lite.XOR
  · rw [if_pos h, if_pos rfl]
    symm
    exact decide_eq_true (by tauto)
  · rw [if_neg h, if_neg (by intro hh; exact absurd hh (by simp))]
    rw [decide_eq_decide]
    constructor
    · intro hq; tauto
    · intro hq
      rcases hq with hq | hq | hq | hq | hq | hq | hq | hq
      all_goals tauto

theorem detectStalls_eq_checks (s : SimState) (d : PipelineStageData)
    (hdec : s.decodeSlot = some d) :
    detectStalls s =
      (checkExecuteStageForHazard s d.instruction.getRs d.instruction.getRt
          (needsRtValue d.instruction) ||
       checkMemoryStageForHazard s d.instruction.getRs d.instruction.getRt
          (needsRtValue d.instruction)) := by
  unfold detectStalls
  simp only [hdec]
  by_cases hg : d.instruction.getRs = 0 ∧
      (needsRtValue d.instruction = false ∨ d.instruction.getRt = 0)
  · rw [if_pos hg]
    have hhaz : ∀ slot : Option PipelineStageData,
        ∀ dest : Nat,
        (causesHazard d.instruction.getRs dest ||
         (needsRtValue d.instruction &&
          causesHazard d.instruction.getRt dest)) = false := by
      intro slot dest
      have h1 : causesHazard d.instruction.getRs dest = false := by
        simp [causesHazard, hg.1]
      rcases hg.2 with h2 | h2
      · simp [h1, h2]
      · have h3 : causesHazard d.instruction.getRt dest = false := by
          simp [causesHazard, h2]
        simp [h1, h3]
    have hce : checkExecuteStageForHazard s d.instruction.getRs
        d.instruction.getRt (needsRtValue d.instruction) = false := by
      unfold checkExecuteStageForHazard
      cases hex : s.exSlot with
      | none => rfl
      | some t =>
          cases hdr : t.dest_reg with
          | none => simp [hdr]
          | some dest => simp [hdr, hhaz s.exSlot dest]
    have hcm : checkMemoryStageForHazard s d.instruction.getRs
        d.instruction.getRt (needsRtValue d.instruction) = false := by
      unfold checkMemoryStageForHazard
      cases hmm : s.memSlot with
      | none => rfl
      | some t =>
          cases hdr : t.dest_reg with
          | none => simp [hdr]
          | some dest => simp [hdr, hhaz s.memSlot dest]
    rw [hce, hcm]
    simp
  · rw [if_neg hg]
    cases hce : checkExecuteStageForHazard s d.instruction.getRs
        d.instruction.getRt (needsRtValue d.instruction) <;>
      cases hcm : checkMemoryStageForHazard s d.instruction.getRs
          d.instruction.getRt (needsRtValue d.instruction) <;>
        simp

theorem hazardBool_eq_spec (d : PipelineStageData)
    (slot : Option PipelineStageData) (t : PipelineStageData) (dest : Nat)
    (hslot : slot = some t) (hdr : t.dest_reg = some dest) :
    (causesHazard d.instruction.getRs dest ||
     (needsRtValue d.instruction &&
      causesHazard d.instruction.getRt dest)) = specHazardAgainst d slot := by
  unfold specHazardAgainst
  simp only [hslot, hdr, needsRtValue_eq_spec, causesHazard]
  cases hq : specReadsRtAsSource d.instruction <;> simp [hq]

theorem checkExecuteStage_eq_spec (s : SimState) (d : PipelineStageData) :
    checkExecuteStageForHazard s d.instruction.getRs d.instruction.getRt
        (needsRtValue d.instruction) =
      (specHazardAgainst d s.exSlot &&
        (slotIsLoad s.exSlot || !s.forward)) := by
  unfold checkExecuteStageForHazard
  cases hex : s.exSlot with
  | none => simp [specHazardAgainst, slotIsLoad]
  | some t =>
      cases hdr : t.dest_reg with
      | none => simp [specHazardAgainst, hdr]
      | some dest =>
          simp only [hdr]
          rw [hazardBool_eq_spec d (some t) t dest rfl hdr]
          cases hA : specHazardAgainst d (some t) with
          | false => simp [hA]
          | true =>
              simp only [hA, if_true]
              cases hf : s.forward <;> simp [hf, slotIsLoad]

theorem checkMemoryStage_eq_spec (s : SimState) (d : PipelineStageData) :
    checkMemoryStageForHazard s d.instruction.getRs d.instruction.getRt
        (needsRtValue d.instruction) =
      (specHazardAgainst d s.memSlot && !s.forward) := by
  unfold checkMemoryStageForHazard
  cases hmm : s.memSlot with
  | none => simp [specHazardAgainst]
  | some t =>
      cases hdr : t.dest_reg with
      | none => simp [specHazardAgainst, hdr]
      | some dest =>
          simp only [hdr]
          rw [hazardBool_eq_spec d (some t) t dest rfl hdr]
          cases hA : specHazardAgainst d (some t) with
          | false => simp [hA]
          | true => simp [hA]

theorem memoryStage_exSlot (s : SimState) : (memoryStage s).exSlot = s.exSlot := by
  unfold memoryStage
  cases h : s.memSlot with
  | none => rfl
  | some m =>
      by_cases h1 : m.instruction.getOpcode = mips_lite.LDW
      · simp [h1]
      · by_cases h2 : m.instruction.getOpcode = mips_lite.STW
        · simp [h1, h2, mips_lite.STW, mips_lite.LDW]
        · simp [h1, h2]

theorem writeBack_ok_exSlot (s s' : SimState) (h : writeBack s = Except.ok s') :
    s'.exSlot = s.exSlot := by
  unfold writeBack at h
  cases hw : s.wbSlot with
  | none => simp only [hw, Except.ok.injEq] at h; subst h; rfl
  | some w =>
      cases hcat : mips_lite.get_instruction_category w.instruction.getOpcode with
      | none =>
          simp only [hw, hcat] at h
          exact Except.noConfusion h
      | some cat =>
          cases hd : w.dest_reg with
          | none =>
              simp only [hw, hcat, hd, Except.ok.injEq] at h
              subst h; rfl
          | some dest =>
              simp only [hw, hcat, hd, Except.ok.injEq] at h
              subst h; rfl

theorem writeBack_ok_parts (s s' : SimState) (h : writeBack s = Except.ok s') :
    s'.fetchSlot = s.fetchSlot ∧ s'.decodeSlot = s.decodeSlot ∧
    s'.memSlot = s.memSlot ∧ s'.stats.stalls = s.stats.stalls := by
  unfold writeBack at h
  cases hw : s.wbSlot with
  | none =>
      simp only [hw, Except.ok.injEq] at h
      subst h; exact ⟨rfl, rfl, rfl, rfl⟩
  | some w =>
      cases hcat : mips_lite.get_instruction_category w.instruction.getOpcode with
      | none =>
          simp only [hw, hcat] at h
          exact Except.noConfusion h
      | some cat =>
          cases hd : w.dest_reg with
          | none =>
              simp only [hw, hcat, hd, Except.ok.injEq] at h
              subst h
              exact ⟨rfl, rfl, rfl, by cases cat <;> rfl⟩
          | some dest =>
              simp only [hw, hcat, hd, Except.ok.injEq] at h
              subst h
              exact ⟨rfl, rfl, rfl, by cases cat <;> rfl⟩

theorem memoryStage_parts (s : SimState) :
    (memoryStage s).fetchSlot = s.fetchSlot ∧
    (memoryStage s).decodeSlot = s.decodeSlot ∧
    (memoryStage s).stats.stalls = s.stats.stalls := by
  unfold memoryStage
  cases h : s.memSlot with
  | none => exact ⟨rfl, rfl, rfl⟩
  | some m =>
      by_cases h1 : m.instruction.getOpcode = mips_lite.LDW
      · simp [h1]
      · by_cases h2 : m.instruction.getOpcode = mips_lite.STW
        · simp [h1, h2, mips_lite.STW, mips_lite.LDW, Stats.addMemoryAddress]
        · simp [h1, h2]

theorem execute_ok_parts (s s' : SimState) (h : execute s = Except.ok s') :
    s'.fetchSlot = s.fetchSlot ∧ s'.decodeSlot = s.decodeSlot ∧
    s'.memSlot = s.memSlot ∧ s'.stats = s.stats := by
  unfold execute at h
  cases hex : s.exSlot with
  | none =>
      simp only [hex, Except.ok.injEq] at h
      subst h; exact ⟨rfl, rfl, rfl, rfl⟩
  | some ex =>
      cases ho : executeOutcome s.pc ex with
      | error e =>
          simp only [hex, ho] at h
          exact Except.noConfusion h
      | ok o =>
          simp only [hex, ho, Except.ok.injEq] at h
          subst h; exact ⟨rfl, rfl, rfl, rfl⟩

theorem instructionFetch_parts (s : SimState) :
    (instructionFetch s).decodeSlot = s.decodeSlot ∧
    (instructionFetch s).exSlot = s.exSlot ∧
    (instructionFetch s).memSlot = s.memSlot ∧
    (instructionFetch s).wbSlot = s.wbSlot ∧
    (instructionFetch s).stall = s.stall ∧
    (instructionFetch s).stats = s.stats := by
  unfold instructionFetch
  cases h : s.fetchSlot with
  | some fd => exact ⟨rfl, rfl, rfl, rfl, rfl, rfl⟩
  | none =>
      by_cases hh : s.halt_pipeline = true
      · simp [hh]
      · simp [hh]

theorem instructionFetch_some (s : SimState) (fd : PipelineStageData)
    (h : s.fetchSlot = some fd) : instructionFetch s = s := by
  unfold instructionFetch
  simp only [h]

theorem instructionDecode_of_stall (s : SimState) (h : s.stall = true) :
    instructionDecode s = Except.ok s := by
  unfold instructionDecode
  cases hd : s.decodeSlot with
  | none => rfl
  | some d => simp [hd, h]

theorem instructionDecode_ok_parts (s s' : SimState)
    (h : instructionDecode s = Except.ok s') :
    s'.fetchSlot = s.fetchSlot ∧ s'.exSlot = s.exSlot ∧
    s'.memSlot = s.memSlot ∧ s'.stall = s.stall ∧ s'.stats = s.stats := by
  unfold instructionDecode at h
  cases hd : s.decodeSlot with
  | none =>
      simp only [hd, Except.ok.injEq] at h
      subst h; exact ⟨rfl, rfl, rfl, rfl, rfl⟩
  | some id_data =>
      by_cases hst : s.stall = true
      · simp only [hd, hst, if_true, Except.ok.injEq] at h
        subst h; exact ⟨rfl, rfl, rfl, rfl, rfl⟩
      · have hstf : s.stall = false := by
          revert hst; cases s.stall <;> simp
        cases hrs : readRegisterValue s id_data.instruction.getRs with
        | error e => simp [hd, hstf, hrs, Bind.bind, Except.bind] at h
        | ok rsv =>
            by_cases hneeds : needsRtValue id_data.instruction = true
            · cases hrt : readRegisterValue s id_data.instruction.getRt with
              | error e =>
                  simp [hd, hstf, hrs, hrt, hneeds, Bind.bind,
                    Except.bind] at h
              | ok rtv =>
                  simp only [hd, hstf, hrs, hrt, hneeds, Bind.bind,
                    Except.bind, if_true, if_false, Bool.false_eq_true,
                    Pure.pure, Except.pure, Except.ok.injEq] at h
                  subst h; exact ⟨rfl, rfl, rfl, hstf.symm, rfl⟩
            · simp only [hd, hstf, hrs, hneeds, Bind.bind, Except.bind,
                if_false, Bool.false_eq_true, Pure.pure, Except.pure,
                Except.ok.injEq] at h
              subst h; exact ⟨rfl, rfl, rfl, hstf.symm, rfl⟩

/-! Theorems settling the claims. -/

/-- Claim C1 (code bug): with a program whose word at address 0 is HALT,
after five cycles the pipeline has drained with the halt latched —
`checkProgramCompletion` computes true — yet `isProgramFinished` still
reports false, because `program_finished` is never assigned anywhere
in the implementation. -/
theorem c1_code_bug_theorem :
    (runN 5 haltInit).toOption.map
      (fun s => (checkProgramCompletion s, s.isProgramFinished)) =
    some (true, false) := by rfl

/-- Claim C2 (code bug): fetching the HALT at address 0 latches the halt
flag but still advances the program counter to 4, so at termination
(halt latched, pipeline drained) the program counter is 4 and not the
address 0 of the HALT instruction. -/
theorem c2_code_bug_theorem :
    (runN 1 haltInit).toOption.map (fun s => (s.halt_pipeline, s.pc)) =
      some (true, 4) ∧
    (runN 5 haltInit).toOption.map
      (fun s => (checkProgramCompletion s, s.pc)) = some (true, 4) :=
  ⟨rfl, rfl⟩

/-- Claim C3 counterexample: committing an instruction whose destination
register is 0 at Writeback does add register 0 to the statistics
modified-register set (here the set goes from empty to exactly
the singleton 0). -/
theorem c3_counterexample :
    (writeBack c3state).toOption.map (fun s => s.stats.registers) =
      some [0] := by rfl

/-- Claim C3 amended: committing an instruction whose destination
register is 0 at Writeback leaves the register file unchanged, but
register 0 IS recorded in the statistics modified-register set — the
zero-register skip lives only inside the register-file write. -/
theorem c3_amended_theorem (s s' : SimState) (w : PipelineStageData)
    (hw : s.wbSlot = some w) (hd : w.dest_reg = some 0)
    (hok : writeBack s = Except.ok s') :
    s'.regs = s.regs ∧ 0 ∈ s'.stats.registers := by
  unfold writeBack at hok
  cases hcat : mips_lite.get_instruction_category w.instruction.getOpcode with
  | none =>
      simp only [hw, hcat] at hok
      exact (Except.noConfusion hok)
  | some cat =>
      simp only [hw, hcat, hd, Except.ok.injEq] at hok
      subst hok
      refine ⟨?_, ?_⟩
      · simp [RegisterFile.write]
      · exact mem_setInsert_self 0 _

/-- Claim C3 amended, witness at a concrete state. -/
theorem c3_amended_witness :
    c3out.regs = c3state.regs ∧ 0 ∈ c3out.stats.registers :=
  c3_amended_theorem c3state c3out c3wb rfl rfl rfl

/-- Claim C4 counterexample: running Decode on an occupied slot holding an
ARITHMETIC instruction leaves the statistics (hence every category
count) unchanged — categories are not counted at the Decode stage. -/
theorem c4_counterexample :
    (c4state.decodeSlot.map
       fun d => mips_lite.get_instruction_category d.instruction.getOpcode) =
      some (some mips_lite.InstructionCategory.ARITHMETIC) ∧
    (instructionDecode c4state).toOption.map (fun s => s.stats) =
      some c4state.stats ∧
    c4state.stats.getCategoryCount mips_lite.InstructionCategory.ARITHMETIC = 0 :=
  ⟨rfl, rfl, rfl⟩

/-- Claim C4 amended: the category count is incremented at the Writeback
stage, exactly once per instruction reaching Writeback, while the
Decode stage leaves the statistics untouched (so an instruction
flushed before reaching Writeback contributes nothing). -/
theorem c4_amended_theorem :
    (∀ (s s' : SimState) (w : PipelineStageData)
       (cat : mips_lite.InstructionCategory),
       s.wbSlot = some w →
       mips_lite.get_instruction_category w.instruction.getOpcode = some cat →
       writeBack s = Except.ok s' →
       ∀ c, s'.stats.getCategoryCount c =
         s.stats.getCategoryCount c + (if c = cat then 1 else 0)) ∧
    (∀ t t' : SimState, instructionDecode t = Except.ok t' →
       t'.stats = t.stats) := by
  constructor
  · intro s s' w cat hw hcat hok c
    unfold writeBack at hok
    cases hd : w.dest_reg with
    | none =>
        simp only [hw, hcat, hd, Except.ok.injEq] at hok
        subst hok
        exact getCategoryCount_incrementCategory s.stats cat c
    | some dest =>
        simp only [hw, hcat, hd, Except.ok.injEq] at hok
        subst hok
        show ((s.stats.incrementCategory cat).addRegister dest).getCategoryCount c = _
        rw [getCategoryCount_addRegister]
        exact getCategoryCount_incrementCategory s.stats cat c
  · intro t t' hok
    unfold instructionDecode at hok
    cases hd : t.decodeSlot with
    | none =>
        simp only [hd, Except.ok.injEq] at hok
        subst hok; rfl
    | some id_data =>
        by_cases hst : t.stall = true
        · simp only [hd, hst, if_true, Except.ok.injEq] at hok
          subst hok; rfl
        · cases hrs : readRegisterValue t id_data.instruction.getRs with
          | error e => simp [hd, hst, hrs, Bind.bind, Except.bind] at hok
          | ok rsv =>
              by_cases hneeds : needsRtValue id_data.instruction = true
              · cases hrt : readRegisterValue t id_data.instruction.getRt with
                | error e =>
                    simp [hd, hst, hrs, hrt, hneeds, Bind.bind,
                      Except.bind] at hok
                | ok rtv =>
                    simp only [hd, hst, hrs, hrt, hneeds, Bind.bind,
                      Except.bind, if_true, if_false, Bool.false_eq_true,
                      Pure.pure, Except.pure, Except.ok.injEq] at hok
                    subst hok; rfl
              · simp only [hd, hst, hrs, hneeds, Bind.bind, Except.bind,
                  if_false, Bool.false_eq_true, Pure.pure, Except.pure,
                  Except.ok.injEq] at hok
                subst hok; rfl

/-- Claim C4 amended, witness at concrete states for both conjuncts. -/
theorem c4_amended_witness :
    c4wbout.stats.getCategoryCount mips_lite.InstructionCategory.ARITHMETIC =
      c4wbstate.stats.getCategoryCount mips_lite.InstructionCategory.ARITHMETIC +
        (if mips_lite.InstructionCategory.ARITHMETIC =
            mips_lite.InstructionCategory.ARITHMETIC then 1 else 0) ∧
    c4decOut.stats = c4state.stats :=
  ⟨c4_amended_theorem.1 c4wbstate c4wbout c4wb
      mips_lite.InstructionCategory.ARITHMETIC rfl rfl rfl
      mips_lite.InstructionCategory.ARITHMETIC,
   c4_amended_theorem.2 c4state c4decOut rfl⟩

/-- Claim C5 counterexample: a data-memory write at address 4096 — an
address that is greater than or equal to 4,096 — does not fail with
the OutOfBounds error: the bounds check of `writeMemory` is strict, so
4096 slips through it and the operation fails inside `seekToLine` with
the seek-range error instead. -/
theorem c5_counterexample :
    MemParser.writeMemory c5parser 4096 0 =
      Except.error MemParser.MemError.SeekOutOfRange := by rfl

/-- Claim C5 amended: for reads, an unaligned address fails Unaligned and
an aligned address at or past 4,096 fails OutOfBounds; for writes, an
unaligned address fails Unaligned but only addresses strictly past
4,096 fail OutOfBounds — a write at exactly 4,096 passes the bounds
check and (whenever the cursor is not already at line 1,024) fails
with the seek-range error; aligned addresses below 4,096 raise no
error on either operation. -/
theorem c5_amended_theorem (p : MemParser.MemoryParser) (a v : Nat) :
    (a % 4 ≠ 0 →
       MemParser.readMemory p a = Except.error MemParser.MemError.Unaligned ∧
       MemParser.writeMemory p a v = Except.error MemParser.MemError.Unaligned) ∧
    (a % 4 = 0 → 4096 ≤ a →
       MemParser.readMemory p a = Except.error MemParser.MemError.OutOfBounds) ∧
    (a % 4 = 0 → 4096 < a →
       MemParser.writeMemory p a v = Except.error MemParser.MemError.OutOfBounds) ∧
    (a % 4 = 0 → a < 4096 →
       (∀ e, MemParser.readMemory p a ≠ Except.error e) ∧
       (∀ e, MemParser.writeMemory p a v ≠ Except.error e)) ∧
    (a = 4096 → p.program_counter_ / 4 ≠ 1024 →
       MemParser.writeMemory p a v =
         Except.error MemParser.MemError.SeekOutOfRange) := by
  have hml : MemParser.MAX_LINE_COUNT * 4 = 4096 := by rfl
  refine ⟨?_, ?_, ?_, ?_, ?_⟩
  · intro ha
    exact ⟨by unfold MemParser.readMemory; rw [if_pos ha],
           by unfold MemParser.writeMemory; rw [if_pos ha]⟩
  · intro ha hb
    unfold MemParser.readMemory
    rw [if_neg (by omega),
        if_pos (show MemParser.MAX_LINE_COUNT * 4 ≤ a by rw [hml]; omega)]
  · intro ha hb
    unfold MemParser.writeMemory
    rw [if_neg (by omega),
        if_pos (show MemParser.MAX_LINE_COUNT * 4 < a by rw [hml]; omega)]
  · intro ha hb
    have hseek : MemParser.seekToLine p (a / 4) =
        Except.ok (if a / 4 = p.program_counter_ / 4 then p
          else { p with lines := MemParser.extendTo p.lines (a / 4 + 1) }) := by
      unfold MemParser.seekToLine
      by_cases hc : a / 4 = p.program_counter_ / 4
      · rw [if_pos hc, if_pos hc]
      · rw [if_neg hc,
            if_neg (show ¬ MemParser.MAX_LINE_COUNT ≤ a / 4 by
              unfold MemParser.MAX_LINE_COUNT; omega),
            if_neg hc]
    constructor
    · intro e h
      unfold MemParser.readMemory at h
      rw [if_neg (by omega),
          if_neg (show ¬ MemParser.MAX_LINE_COUNT * 4 ≤ a by rw [hml]; omega)]
        at h
      simp only [hseek, Bind.bind, Except.bind] at h
      exact Except.noConfusion h
    · intro e h
      unfold MemParser.writeMemory at h
      rw [if_neg (by omega),
          if_neg (show ¬ MemParser.MAX_LINE_COUNT * 4 < a by rw [hml]; omega)]
        at h
      simp only [hseek, Bind.bind, Except.bind] at h
      exact Except.noConfusion h
  · intro ha hpc
    subst ha
    unfold MemParser.writeMemory
    rw [if_neg (by omega),
        if_neg (show ¬ MemParser.MAX_LINE_COUNT * 4 < 4096 by rw [hml]; omega)]
    have hseek : MemParser.seekToLine p (4096 / 4) =
        Except.error MemParser.MemError.SeekOutOfRange := by
      unfold MemParser.seekToLine
      rw [if_neg (by omega),
          if_pos (show MemParser.MAX_LINE_COUNT ≤ 4096 / 4 by
            unfold MemParser.MAX_LINE_COUNT; omega)]
    simp only [hseek, Bind.bind, Except.bind]

/-- Claim C5 amended, witness at concrete addresses for every conjunct. -/
theorem c5_amended_witness :
    (MemParser.readMemory c5parser 6 =
       Except.error MemParser.MemError.Unaligned ∧
     MemParser.writeMemory c5parser 6 0 =
       Except.error MemParser.MemError.Unaligned) ∧
    MemParser.readMemory c5parser 4096 =
      Except.error MemParser.MemError.OutOfBounds ∧
    MemParser.writeMemory c5parser 4100 0 =
      Except.error MemParser.MemError.OutOfBounds ∧
    ((∀ e, MemParser.readMemory c5parser 8 ≠ Except.error e) ∧
     (∀ e, MemParser.writeMemory c5parser 8 0 ≠ Except.error e)) ∧
    MemParser.writeMemory c5parser 4096 0 =
      Except.error MemParser.MemError.SeekOutOfRange :=
  ⟨(c5_amended_theorem c5parser 6 0).1 (by decide),
   (c5_amended_theorem c5parser 4096 0).2.1 (by decide) (by decide),
   (c5_amended_theorem c5parser 4100 0).2.2.1 (by decide) (by decide),
   (c5_amended_theorem c5parser 8 0).2.2.2.1 (by decide) (by decide),
   (c5_amended_theorem c5parser 4096 0).2.2.2.2 rfl (by decide)⟩

/-- Claim C6: on every engine state the hazard unit's stall signal equals
the specification predicate — some required source register r of the
Decode instruction (rs always; rt exactly when reads-Rt-as-source)
satisfies r ≠ 0 and equals the destination register of an occupied
Execute or Memory slot — combined through the policy table: a hazard
against Execute with a non-load stalls iff forwarding is disabled, a
hazard against Execute with LDW stalls regardless of forwarding, a
hazard against Memory stalls iff forwarding is disabled, and no hazard
never stalls. -/
theorem c6_theorem (s : SimState) : detectStalls s = stallSpecC6 s := by
  unfold stallSpecC6
  cases hdec : s.decodeSlot with
  | none =>
      unfold detectStalls
      simp only [hdec]
  | some d =>
      rw [detectStalls_eq_checks s d hdec]
      simp only [hdec, checkExecuteStage_eq_spec, checkMemoryStage_eq_spec]
      cases hA : specHazardAgainst d s.exSlot <;>
        cases hL : slotIsLoad s.exSlot <;>
          cases hF : s.forward <;>
            cases hM : specHazardAgainst d s.memSlot <;>
              simp [hA, hL, hF, hM]

/-- Claim C7 counterexample: with forwarding enabled and the hazard unit
reporting no stall, the engine resolves the required source register 0
of the Decode instruction to 0 (the register-0 short circuit), while
the claimed priority would forward Execute's ALU result 5 — Execute is
occupied with a non-load whose destination register is 0. -/
theorem c7_counterexample :
    c7state.forward = true ∧ detectStalls c7state = false ∧
    (c7state.decodeSlot.map fun d => d.instruction.getRs) = some 0 ∧
    readRegisterValue c7state 0 = Except.ok 0 ∧
    resolveSpecC7 c7state 0 = 5 :=
  ⟨rfl, by rfl, rfl, rfl, by rfl⟩

/-- Claim C7 amended: with forwarding enabled and no stall reported, each
required NONZERO source register r of the Decode instruction is
resolved with the claimed priority (Execute's ALU result for an
occupied non-load producer, then Memory's load data or ALU result,
then the register file); register 0 itself always resolves to 0
regardless of the pipeline contents. -/
theorem c7_amended_theorem (s : SimState) (d : PipelineStageData) (r : Nat)
    (hfwd : s.forward = true) (hstall : s.stall = false)
    (hdec : s.decodeSlot = some d)
    (hds : detectStalls s = false)
    (hr : r = d.instruction.getRs ∨
          (needsRtValue d.instruction = true ∧ r = d.instruction.getRt))
    (hr0 : r ≠ 0) :
    readRegisterValue s r = Except.ok (resolveSpecC7 s r) := by
  have hmem : readRegisterValueMemStage s r = resolveSpecC7mem s r := rfl
  have hexcontra : ∀ ex : PipelineStageData, s.exSlot = some ex →
      ex.dest_reg = some r →
      ex.instruction.getOpcode = mips_lite.LDW → False := by
    intro ex hex hdr hld
    have hguard : ¬ (d.instruction.getRs = 0 ∧
        (needsRtValue d.instruction = false ∨ d.instruction.getRt = 0)) := by
      rcases hr with hr | ⟨hneeds, hr⟩
      · intro h; exact hr0 (hr.trans h.1)
      · intro h
        rcases h.2 with h2 | h2
        · rw [hneeds] at h2; exact Bool.noConfusion h2
        · exact hr0 (hr.trans h2)
    have hhaz : (causesHazard d.instruction.getRs r ||
        (needsRtValue d.instruction &&
         causesHazard d.instruction.getRt r)) = true := by
      rcases hr with hr | ⟨hneeds, hr⟩
      · have hc : causesHazard d.instruction.getRs r = true := by
          rw [← hr]; simp [causesHazard, hr0]
        simp [hc]
      · have hc : causesHazard d.instruction.getRt r = true := by
          rw [← hr]; simp [causesHazard, hr0]
        simp [hc, hneeds]
    have hcheck : checkExecuteStageForHazard s d.instruction.getRs
        d.instruction.getRt (needsRtValue d.instruction) = true := by
      unfold checkExecuteStageForHazard
      simp only [hex, hdr, hhaz, if_true, hfwd]
      simp [hld]
    have htrue : detectStalls s = true := by
      unfold detectStalls
      simp only [hdec]
      rw [if_neg hguard, if_pos hcheck]
    rw [hds] at htrue
    exact Bool.noConfusion htrue
  unfold readRegisterValue resolveSpecC7
  rw [if_neg hr0, if_neg (show ¬ s.stall = true by simp [hstall])]
  cases hex : s.exSlot with
  | none => simp only [hmem]
  | some ex =>
      simp only
      by_cases hdr : ex.dest_reg = some r
      · by_cases hld : ex.instruction.getOpcode = mips_lite.LDW
        · exact (hexcontra ex hex hdr hld).elim
        · rw [if_pos hdr, if_neg hld, if_pos ⟨hdr, hld⟩]
      · rw [if_neg hdr,
          if_neg (show ¬ (ex.dest_reg = some r ∧
            ¬ ex.instruction.getOpcode = mips_lite.LDW) from fun h => hdr h.1),
          hmem]

/-- Claim C7 amended, witness: a forwarding state where the required
source register 1 is resolved from the Memory stage per the priority. -/
theorem c7_amended_witness :
    readRegisterValue c7wstate 1 = Except.ok (resolveSpecC7 c7wstate 1) :=
  c7_amended_theorem c7wstate
    (PipelineStageData.fresh (Instruction.ofWord 0x00222800) 8) 1
    rfl rfl rfl (by rfl) (Or.inl (by rfl)) (by decide)

/-- Claim C8: whenever the Execute slot resolves a taken branch — BZ with
captured rs value 0, BEQ with equal captured rs and rt values, or JR —
the cycle assigns the program counter the branch target (rs for JR,
the branch's own fetch-time program counter plus the sign-extended
immediate times 4 for BZ/BEQ), empties the Fetch and Decode slots,
clears `stall` and `branch_taken`, and neither Decode nor Fetch runs:
the resulting state is exactly the advanced post-Memory view. -/
theorem c8_theorem (s s1 : SimState) (ex : PipelineStageData)
    (hex : s.exSlot = some ex)
    (hwb : writeBack { s with stats := s.stats.incrementClockCycles } =
      Except.ok s1)
    (hbr : (ex.instruction.getOpcode = mips_lite.BZ ∧ ex.rs_value = 0) ∨
           (ex.instruction.getOpcode = mips_lite.BEQ ∧
             ex.rs_value = ex.rt_value) ∨
           ex.instruction.getOpcode = mips_lite.JR) :
    cycle s = Except.ok
      { memoryStage s1 with
        pc := branchTargetC8 ex,
        wbSlot := (memoryStage s1).memSlot,
        memSlot := some { ex with alu_result := branchTargetC8 ex },
        exSlot := none, decodeSlot := none, fetchSlot := none,
        stall := false, branch_taken := false } := by
  have hex1 : s1.exSlot = s.exSlot :=
    writeBack_ok_exSlot { s with stats := s.stats.incrementClockCycles } s1 hwb
  have hex2 : (memoryStage s1).exSlot = some ex := by
    rw [memoryStage_exSlot, hex1, hex]
  have hout : executeOutcome (memoryStage s1).pc ex =
      Except.ok ⟨branchTargetC8 ex, some true, false⟩ := by
    unfold executeOutcome
    rcases hbr with ⟨hop, hz⟩ | ⟨hop, hz⟩ | hop
    · simp [hop, hz, branchTargetC8, mips_lite.ADD, mips_lite.ADDI,
        mips_lite.SUB, mips_lite.SUBI, mips_lite.MUL, mips_lite.MULI,
        mips_lite.OR, mips_lite.ORI, mips_lite.AND, mips_lite.ANDI,
        mips_lite.XOR, mips_lite.XORI, mips_lite.LDW, mips_lite.STW,
        mips_lite.BZ, mips_lite.BEQ, mips_lite.JR, mips_lite.HALT]
    · simp [hop, hz, branchTargetC8, mips_lite.ADD, mips_lite.ADDI,
        mips_lite.SUB, mips_lite.SUBI, mips_lite.MUL, mips_lite.MULI,
        mips_lite.OR, mips_lite.ORI, mips_lite.AND, mips_lite.ANDI,
        mips_lite.XOR, mips_lite.XORI, mips_lite.LDW, mips_lite.STW,
        mips_lite.BZ, mips_lite.BEQ, mips_lite.JR, mips_lite.HALT]
    · simp [hop, branchTargetC8, mips_lite.ADD, mips_lite.ADDI,
        mips_lite.SUB, mips_lite.SUBI, mips_lite.MUL, mips_lite.MULI,
        mips_lite.OR, mips_lite.ORI, mips_lite.AND, mips_lite.ANDI,
        mips_lite.XOR, mips_lite.XORI, mips_lite.LDW, mips_lite.STW,
        mips_lite.BZ, mips_lite.BEQ, mips_lite.JR, mips_lite.HALT]
  have hexec : execute (memoryStage s1) = Except.ok
      { memoryStage s1 with
        exSlot := some { ex with alu_result := branchTargetC8 ex },
        branch_taken := true } := by
    unfold execute
    simp only [hex2, hout, Option.getD_some, Bool.or_false]
  have hcomp : ¬ checkProgramCompletion s = true := by
    simp [checkProgramCompletion, hex]
  unfold cycle
  rw [if_neg hcomp]
  simp only [Bind.bind, Except.bind, hwb, hexec, advancePipeline]
  rfl

/-- Claim C8, witness: a concrete cycle resolving a taken JR. -/
theorem c8_witness :
    cycle c8state = Except.ok
      { memoryStage c8s1 with
        pc := branchTargetC8 c8ex,
        wbSlot := (memoryStage c8s1).memSlot,
        memSlot := some { c8ex with alu_result := branchTargetC8 c8ex },
        exSlot := none, decodeSlot := none, fetchSlot := none,
        stall := false, branch_taken := false } :=
  c8_theorem c8state c8s1 c8ex rfl rfl (Or.inr (Or.inr (by rfl)))

/-- Claim C9: in a cycle whose hazard check (on the post-execute view s2)
raises the stall signal, the advance step moves Memory to Writeback
and Execute to Memory, inserts a bubble into Execute, leaves the Fetch
and Decode slots where they are and increments the stall counter by
exactly one (the cycle's result is the stalled-advance of s2, whose
Decode slot is still the original one); in a cycle with no stall,
Decode moves to Execute, Fetch moves to Decode, Fetch is left empty
and the stall counter is unchanged. -/
theorem c9_theorem :
    (∀ s s1 s2 : SimState,
       checkProgramCompletion s = false →
       writeBack { s with stats := s.stats.incrementClockCycles } =
         Except.ok s1 →
       execute (memoryStage s1) = Except.ok s2 →
       s2.branch_taken = false →
       detectStalls s2 = true →
       cycle s = Except.ok (stallAdvanceResult s2) ∧
       (stallAdvanceResult s2).decodeSlot = s.decodeSlot ∧
       (stallAdvanceResult s2).exSlot = none ∧
       (stallAdvanceResult s2).wbSlot = s2.memSlot ∧
       (stallAdvanceResult s2).memSlot = s2.exSlot ∧
       (stallAdvanceResult s2).stats.stalls = s.stats.stalls + 1 ∧
       (∀ fd, s.fetchSlot = some fd →
          (stallAdvanceResult s2).fetchSlot = some fd)) ∧
    (∀ s s1 s2 s3 : SimState,
       checkProgramCompletion s = false →
       writeBack { s with stats := s.stats.incrementClockCycles } =
         Except.ok s1 →
       execute (memoryStage s1) = Except.ok s2 →
       s2.branch_taken = false →
       detectStalls s2 = false →
       instructionDecode { s2 with stall := false } = Except.ok s3 →
       cycle s = Except.ok (noStallAdvanceResult s3) ∧
       (noStallAdvanceResult s3).exSlot = s3.decodeSlot ∧
       (noStallAdvanceResult s3).decodeSlot =
         (instructionFetch s3).fetchSlot ∧
       (noStallAdvanceResult s3).fetchSlot = none ∧
       (noStallAdvanceResult s3).stats.stalls = s.stats.stalls) := by
  constructor
  · intro s s1 s2 hcomp hwb hexec hbt hds
    have hwparts :=
      writeBack_ok_parts { s with stats := s.stats.incrementClockCycles } s1 hwb
    have hmparts := memoryStage_parts s1
    have heparts := execute_ok_parts (memoryStage s1) s2 hexec
    have hfparts := instructionFetch_parts { s2 with stall := true }
    have hd2 : s2.decodeSlot = s.decodeSlot := by
      rw [heparts.2.1, hmparts.2.1, hwparts.2.1]
    have hst2 : s2.stats.stalls = s.stats.stalls := by
      rw [show s2.stats = (memoryStage s1).stats from heparts.2.2.2,
          hmparts.2.2, hwparts.2.2.2]
      rfl
    have hcyc : cycle s = Except.ok (stallAdvanceResult s2) := by
      unfold cycle
      rw [if_neg (by simp [hcomp])]
      simp only [Bind.bind, Except.bind, hwb, hexec]
      rw [if_neg (by simp [hbt]), hds]
      simp only [instructionDecode_of_stall { s2 with stall := true } rfl]
      unfold advancePipeline stallAdvanceResult
      rw [if_pos (show (instructionFetch { s2 with stall := true }).stall = true
        from hfparts.2.2.2.2.1)]
    refine ⟨hcyc, ?_, rfl, ?_, ?_, ?_, ?_⟩
    · show (instructionFetch { s2 with stall := true }).decodeSlot =
        s.decodeSlot
      rw [hfparts.1]; exact hd2
    · show (instructionFetch { s2 with stall := true }).memSlot = s2.memSlot
      exact hfparts.2.2.1
    · show (instructionFetch { s2 with stall := true }).exSlot = s2.exSlot
      exact hfparts.2.1
    · show ((instructionFetch { s2 with stall := true }).stats.incrementStalls).stalls =
        s.stats.stalls + 1
      rw [show (instructionFetch { s2 with stall := true }).stats = s2.stats from
        hfparts.2.2.2.2.2]
      show s2.stats.stalls + 1 = s.stats.stalls + 1
      rw [hst2]
    · intro fd hfd
      have hf2 : s2.fetchSlot = s.fetchSlot := by
        rw [heparts.1, hmparts.1, hwparts.1]
      have : ({ s2 with stall := true } : SimState).fetchSlot = some fd := by
        show s2.fetchSlot = some fd
        rw [hf2, hfd]
      show (instructionFetch { s2 with stall := true }).fetchSlot = some fd
      rw [instructionFetch_some { s2 with stall := true } fd this]
      exact this
  · intro s s1 s2 s3 hcomp hwb hexec hbt hds hdec
    have hwparts :=
      writeBack_ok_parts { s with stats := s.stats.incrementClockCycles } s1 hwb
    have hmparts := memoryStage_parts s1
    have heparts := execute_ok_parts (memoryStage s1) s2 hexec
    have hdparts := instructionDecode_ok_parts { s2 with stall := false } s3 hdec
    have hfparts := instructionFetch_parts s3
    have hcyc : cycle s = Except.ok (noStallAdvanceResult s3) := by
      unfold cycle
      rw [if_neg (by simp [hcomp])]
      simp only [Bind.bind, Except.bind, hwb, hexec]
      rw [if_neg (by simp [hbt]), hds]
      simp only [hdec]
      unfold advancePipeline noStallAdvanceResult
      rw [if_neg (show ¬ (instructionFetch s3).stall = true by
        rw [hfparts.2.2.2.2.1, hdparts.2.2.2.1]; simp)]
    refine ⟨hcyc, ?_, rfl, rfl, ?_⟩
    · show (instructionFetch s3).decodeSlot = s3.decodeSlot
      exact hfparts.1
    · show ((instructionFetch s3).stats).stalls = s.stats.stalls
      rw [hfparts.2.2.2.2.2, hdparts.2.2.2.2,
          show s2.stats = (memoryStage s1).stats from heparts.2.2.2,
          hmparts.2.2, hwparts.2.2.2]
      rfl

/-- Claim C9, witness: a concrete stalled cycle (read-after-write hazard
with forwarding disabled) and a concrete unstalled cycle. -/
theorem c9_witness :
    cycle c9state = Except.ok (stallAdvanceResult c9s2) ∧
    cycle c9pstate = Except.ok (noStallAdvanceResult c9ps3) :=
  ⟨(c9_theorem.1 c9state c9s1 c9s2 rfl rfl rfl rfl (by rfl)).1,
   (c9_theorem.2 c9pstate c9ps1 c9ps2 c9ps3 rfl rfl rfl rfl (by rfl) rfl).1⟩

end MipsLite
